import Mathlib

/-!
# Verification of the jsjs-vm compiler and stack virtual machine

A shallow embedding of the repository's three source files:

* `src/constrains.ts` — the `OpCode` enum (one byte per opcode).
* `src/compiler.ts` — `UniqueId`, the symbolic instruction buffer
  (`AsmInstruction`), the statement/expression lowering
  (`compileStatement` / `compileExpression` / `compileMemberAndProperty`
  / `compileBlock`), and the assembly pass (`toNumberArray`).
* `src/virtual-machine.ts` — `Scope` / `GlobalScope` and the
  `VirtualMachine.run` dispatch loop.

Modelling conventions, stated once:

* JS numbers are modelled as `Int`.  Every concrete program evaluated in
  the theorems below computes only with integer values on which IEEE-754
  double arithmetic is exact, so the abstraction is faithful there;
  operations whose JS result would leave the integer fragment (`NaN`,
  non-integral division, …) make the modelled machine fault, and no
  theorem below exercises them.
* The assembled byte stream is modelled at the granularity of one `Code`
  cell per opcode byte / numeric immediate / address immediate / string
  immediate.  The source writes 1 / 8 / 4 / 2·len+2 bytes respectively;
  the cell model preserves the instruction order, the operand decoding
  and the label-resolution mechanism (a label's address is its cell
  offset, references are patched in a second pass), which is everything
  the claims exercise.  Byte widths themselves are claimed nowhere.
* TypeScript class state (the compiler's instruction buffer, the VM's
  stack and scope store) becomes explicit state passing.  The recursive
  AST walks carry an explicit depth argument (`fuel`); any bound larger
  than the AST depth yields exactly the source's behaviour, and all
  theorems use such bounds.
* `console.log` tracing and the pretty-printer `Compiler.show` have no
  observable effect on compilation or execution and are not modelled.
-/

/-! ## `src/constrains.ts` — the OpCode enum

The enum's values, kept verbatim.  Note `BAND` and `LSHIFT` are both
assigned `0x73` in the source. -/

def OpCode.NOP : Nat := 0x00
def OpCode.UNDEF : Nat := 0x01
def OpCode.NULL : Nat := 0x02
def OpCode.OBJ : Nat := 0x03
def OpCode.ARR : Nat := 0x04
def OpCode.TRUE : Nat := 0x05
def OpCode.FALSE : Nat := 0x06
def OpCode.NUM : Nat := 0x07
def OpCode.ADDR : Nat := 0x08
def OpCode.STR : Nat := 0x09
def OpCode.POP : Nat := 0x0A
def OpCode.TOP : Nat := 0x0D
def OpCode.TOP2 : Nat := 0x0E
def OpCode.VAR : Nat := 0x10
def OpCode.LOAD : Nat := 0x11
def OpCode.OUT : Nat := 0x12
def OpCode.JUMP : Nat := 0x20
def OpCode.JUMPIF : Nat := 0x21
def OpCode.JUMPNOT : Nat := 0x22
def OpCode.FUNC : Nat := 0x30
def OpCode.CALL : Nat := 0x31
def OpCode.NEW : Nat := 0x32
def OpCode.RET : Nat := 0x33
def OpCode.GET : Nat := 0x40
def OpCode.SET : Nat := 0x41
def OpCode.IN : Nat := 0x43
def OpCode.DELETE : Nat := 0x44
def OpCode.EQ : Nat := 0x50
def OpCode.NEQ : Nat := 0x51
def OpCode.SEQ : Nat := 0x52
def OpCode.SNEQ : Nat := 0x53
def OpCode.LT : Nat := 0x54
def OpCode.LTE : Nat := 0x55
def OpCode.GT : Nat := 0x56
def OpCode.GTE : Nat := 0x57
def OpCode.ADD : Nat := 0x60
def OpCode.SUB : Nat := 0x61
def OpCode.MUL : Nat := 0x62
def OpCode.EXP : Nat := 0x63
def OpCode.DIV : Nat := 0x64
def OpCode.MOD : Nat := 0x65
def OpCode.BNOT : Nat := 0x70
def OpCode.BOR : Nat := 0x71
def OpCode.BXOR : Nat := 0x72
def OpCode.BAND : Nat := 0x73
def OpCode.LSHIFT : Nat := 0x73
def OpCode.RSHIFT : Nat := 0x75
def OpCode.URSHIFT : Nat := 0x76
def OpCode.OR : Nat := 0x80
def OpCode.AND : Nat := 0x81
def OpCode.NOT : Nat := 0x82
def OpCode.INSOF : Nat := 0x90
def OpCode.TYPEOF : Nat := 0x91

/-- The enum's member names, as an inductive, so that the mnemonic-to-byte
assignment of `constrains.ts` can be stated as a function. -/
inductive OpName where
  | NOP | UNDEF | NULL | OBJ | ARR | TRUE | FALSE | NUM | ADDR | STR
  | POP | TOP | TOP2 | VAR | LOAD | OUT | JUMP | JUMPIF | JUMPNOT
  | FUNC | CALL | NEW | RET | GET | SET | IN | DELETE
  | EQ | NEQ | SEQ | SNEQ | LT | LTE | GT | GTE
  | ADD | SUB | MUL | EXP | DIV | MOD
  | BNOT | BOR | BXOR | BAND | LSHIFT | RSHIFT | URSHIFT
  | OR | AND | NOT | INSOF | TYPEOF
deriving DecidableEq

/-- The byte each enum member is assigned in `constrains.ts`. -/
def OpName.toByte : OpName → Nat
  | .NOP => OpCode.NOP
  | .UNDEF => OpCode.UNDEF
  | .NULL => OpCode.NULL
  | .OBJ => OpCode.OBJ
  | .ARR => OpCode.ARR
  | .TRUE => OpCode.TRUE
  | .FALSE => OpCode.FALSE
  | .NUM => OpCode.NUM
  | .ADDR => OpCode.ADDR
  | .STR => OpCode.STR
  | .POP => OpCode.POP
  | .TOP => OpCode.TOP
  | .TOP2 => OpCode.TOP2
  | .VAR => OpCode.VAR
  | .LOAD => OpCode.LOAD
  | .OUT => OpCode.OUT
  | .JUMP => OpCode.JUMP
  | .JUMPIF => OpCode.JUMPIF
  | .JUMPNOT => OpCode.JUMPNOT
  | .FUNC => OpCode.FUNC
  | .CALL => OpCode.CALL
  | .NEW => OpCode.NEW
  | .RET => OpCode.RET
  | .GET => OpCode.GET
  | .SET => OpCode.SET
  | .IN => OpCode.IN
  | .DELETE => OpCode.DELETE
  | .EQ => OpCode.EQ
  | .NEQ => OpCode.NEQ
  | .SEQ => OpCode.SEQ
  | .SNEQ => OpCode.SNEQ
  | .LT => OpCode.LT
  | .LTE => OpCode.LTE
  | .GT => OpCode.GT
  | .GTE => OpCode.GTE
  | .ADD => OpCode.ADD
  | .SUB => OpCode.SUB
  | .MUL => OpCode.MUL
  | .EXP => OpCode.EXP
  | .DIV => OpCode.DIV
  | .MOD => OpCode.MOD
  | .BNOT => OpCode.BNOT
  | .BOR => OpCode.BOR
  | .BXOR => OpCode.BXOR
  | .BAND => OpCode.BAND
  | .LSHIFT => OpCode.LSHIFT
  | .RSHIFT => OpCode.RSHIFT
  | .URSHIFT => OpCode.URSHIFT
  | .OR => OpCode.OR
  | .AND => OpCode.AND
  | .NOT => OpCode.NOT
  | .INSOF => OpCode.INSOF
  | .TYPEOF => OpCode.TYPEOF

/-! ## `src/compiler.ts` — symbolic instructions and the compiler state -/

/-- The payload of a `data` instruction.  The source additionally caches
the encoded bytes (`data: number[]`); the byte encoding is produced at
assembly time in this model (see `Code`). -/
inductive RawData where
  | num (n : Int)
  | str (s : String)
deriving DecidableEq

/-- The `AsmInstruction` union of `compiler.ts`.  `writeOp`'s optional comment
argument is never supplied by any call site and is dropped. -/
inductive AsmInstruction where
  | label (name : String)
  | reference (labelName : String)
  | opcode (op : Nat)
  | data (rawData : RawData)
  | comment (comment : String)
deriving DecidableEq

/-- One entry of `Compiler.controlBlockStack`.  The source's field names
`continue` and `break` are Lean keywords and are renamed. -/
structure CtrlEntry where
  contLabel : Option String
  breakLabel : Option String
deriving DecidableEq

/-- The compiler's mutable state: the instruction buffer, the control
block stack (top at the head; the source uses an array pushed at the
end and scanned from the end), and `UniqueId.nextId`. -/
structure CState where
  instructions : List AsmInstruction
  controlBlockStack : List CtrlEntry
  nextId : Nat
deriving DecidableEq

/-- Model of `UniqueId.get`: the counter formatted as lowercase hex
(`(nextId++).toString(16)`). -/
def uidHex (n : Nat) : String := String.mk (Nat.toDigits 16 n)

/-- Model of `Compiler.createLabelName`: mint a fresh label, consuming one id. -/
def createLabelName (st : CState) (name : String) : String × CState :=
  ("." ++ name ++ "_" ++ uidHex st.nextId, { st with nextId := st.nextId + 1 })

def writeLabel (st : CState) (name : String) : CState :=
  { st with instructions := st.instructions ++ [.label name] }

def writeOp (st : CState) (code : Nat) : CState :=
  { st with instructions := st.instructions ++ [.opcode code] }

/-- Model of `Compiler.writeReference`: `ADDR` opcode followed by the reference
record (whose 4 address bytes are filled in during assembly). -/
def writeReference (st : CState) (name : String) : CState :=
  let st := writeOp st OpCode.ADDR
  { st with instructions := st.instructions ++ [.reference name] }

/-- Model of `Compiler.writeNumber`: `NUM` opcode followed by the 8-byte IEEE-754
immediate (the payload abstracted as `RawData.num`). -/
def writeNumber (st : CState) (nu : Int) : CState :=
  let st := writeOp st OpCode.NUM
  { st with instructions := st.instructions ++ [.data (.num nu)] }

/-- Model of `Compiler.writeString`: `STR` opcode followed by the null-terminated
UTF-16 immediate (the payload abstracted as `RawData.str`). -/
def writeString (st : CState) (s : String) : CState :=
  let st := writeOp st OpCode.STR
  { st with instructions := st.instructions ++ [.data (.str s)] }

/-! ## The AST fragment

The estree node kinds the lowering claims exercise, with the fields the
compiler reads.  Node kinds the claims never touch (object/array
literals, call/new expressions, update expressions, function
expressions) are omitted; the compiler cases below cover exactly the
constructors present. -/

/-- A `Literal.value`: null, number, string or boolean. -/
inductive Lit where
  | null
  | num (n : Int)
  | str (s : String)
  | bool (b : Bool)
deriving DecidableEq

/-- A `BinaryExpression.operator`. -/
inductive BinOp where
  | eq | neq | seq | sneq | lt | lte | gt | gte
  | lshift | rshift | urshift
  | add | sub | mul | exp | div | mod
  | bor | bxor | band | inOp | insof
deriving DecidableEq

/-- The opcode `compileExpression`'s BinaryExpression case emits for each
operator. -/
def BinOp.toOpCode : BinOp → Nat
  | .eq => OpCode.EQ
  | .neq => OpCode.NEQ
  | .seq => OpCode.SEQ
  | .sneq => OpCode.SNEQ
  | .lt => OpCode.LT
  | .lte => OpCode.LTE
  | .gt => OpCode.GT
  | .gte => OpCode.GTE
  | .lshift => OpCode.LSHIFT
  | .rshift => OpCode.RSHIFT
  | .urshift => OpCode.URSHIFT
  | .add => OpCode.ADD
  | .sub => OpCode.SUB
  | .mul => OpCode.MUL
  | .exp => OpCode.EXP
  | .div => OpCode.DIV
  | .mod => OpCode.MOD
  | .bor => OpCode.BOR
  | .bxor => OpCode.BXOR
  | .band => OpCode.BAND
  | .inOp => OpCode.IN
  | .insof => OpCode.INSOF

/-- An `AssignmentExpression.operator`. -/
inductive AOp where
  | assign | addA | subA | mulA | expA | divA | modA
  | lshiftA | rshiftA | urshiftA | borA | bxorA | bandA
deriving DecidableEq

/-- The compiler's operator table for AssignmentExpression
(`'=': OpCode.NOP, '+=': OpCode.ADD, …`). -/
def AOp.toOpCode : AOp → Nat
  | .assign => OpCode.NOP
  | .addA => OpCode.ADD
  | .subA => OpCode.SUB
  | .mulA => OpCode.MUL
  | .expA => OpCode.EXP
  | .divA => OpCode.DIV
  | .modA => OpCode.MOD
  | .lshiftA => OpCode.LSHIFT
  | .rshiftA => OpCode.RSHIFT
  | .urshiftA => OpCode.URSHIFT
  | .borA => OpCode.BOR
  | .bxorA => OpCode.BXOR
  | .bandA => OpCode.BAND

/-- A `UnaryExpression.operator`. -/
inductive UnaryOp where
  | plus | neg | lognot | bnot | typeofOp | voidOp | deleteOp
deriving DecidableEq

/-- Expressions.  A `member` node carries `computed` and the property
expression; when `computed` is false the compiler reads the property's
identifier name (`memberPropName`). -/
inductive Expr where
  | ident (name : String)
  | lit (l : Lit)
  | thisE
  | unary (op : UnaryOp) (argument : Expr)
  | binary (op : BinOp) (left right : Expr)
  | logical (isAnd : Bool) (left right : Expr)
  | member (object : Expr) (computed : Bool) (property : Expr)
  | cond (test consequent alternate : Expr)
  | assign (op : AOp) (left right : Expr)
  | seqE (expressions : List Expr)

/-- Model of `(expr.property as Identifier).name` — the source casts the property
node to an identifier when `computed` is false. -/
def memberPropName : Expr → String
  | .ident n => n
  | _ => ""

/-- Statements.  `varDecl` declarators are `(name, optional initializer)`
pairs; `switchS` cases are `(optional test, consequent)` pairs;
`funcDecl` carries the parser-assigned block label and the parameter
count the declaration site needs. -/
inductive Stmt where
  | empty
  | block (body : List Stmt)
  | breakS
  | continueS
  | ifS (test : Expr) (consequent : Stmt) (alternate : Option Stmt)
  | switchS (discriminant : Expr) (cases : List (Option Expr × List Stmt))
  | whileS (test : Expr) (body : Stmt)
  | doWhileS (body : Stmt) (test : Expr)
  | forS (init : Option (List (String × Option Expr) ⊕ Expr))
         (test : Option Expr) (update : Option Expr) (body : Stmt)
  | varDecl (declarations : List (String × Option Expr))
  | funcDecl (name : String) (paramCount : Nat) (labelName : String)
  | returnS (argument : Option Expr)
  | exprStmt (expression : Expr)

/-! ## `Compiler.compileExpression`

The recursion carries an explicit depth bound; at depth 0 the state is
returned unchanged (never reached by the theorems' inputs). -/

/-- Value of `arguments.length` inside the source's SequenceExpression case:
`compileExpression` is invoked with exactly one argument at every call
site, so the JS `arguments` object always has length 1 — and the pop
condition `i < arguments.length - 1` never holds. -/
def argumentsLength : Nat := 1

mutual

/-- Model of `Compiler.compileMemberAndProperty`. -/
def compileMemberAndProperty (fuel : Nat) (object : Expr) (computed : Bool)
    (property : Expr) (st : CState) : CState :=
  match fuel with
  | 0 => st
  | fuel + 1 =>
    let st := compileExpression fuel object st
    if computed then
      compileExpression fuel property st
    else
      writeString st (memberPropName property)

/-- Model of `Compiler.compileExpression`. -/
def compileExpression (fuel : Nat) (expr : Expr) (st : CState) : CState :=
  match fuel with
  | 0 => st
  | fuel + 1 =>
    match expr with
    | .ident name =>
      match name with
      | "undefined" => writeOp st OpCode.UNDEF
      | "null" => writeOp st OpCode.NULL
      | _ => writeOp (writeString st name) OpCode.LOAD
    | .lit l =>
      match l with
      | .null => writeOp st OpCode.NULL
      | .num n => writeNumber st n
      | .str s => writeString st s
      | .bool b => writeOp st (if b then OpCode.TRUE else OpCode.FALSE)
    | .thisE => writeOp (writeString st "this") OpCode.LOAD
    | .unary op argument =>
      match op with
      | .plus =>
        let st := writeNumber st 0
        let st := compileExpression fuel argument st
        writeOp st OpCode.ADD
      | .neg =>
        let st := writeNumber st 0
        let st := compileExpression fuel argument st
        writeOp st OpCode.SUB
      | .lognot => writeOp (compileExpression fuel argument st) OpCode.NOT
      | .bnot => writeOp (compileExpression fuel argument st) OpCode.BNOT
      | .typeofOp => writeOp (compileExpression fuel argument st) OpCode.TYPEOF
      | .voidOp =>
        let st := compileExpression fuel argument st
        writeOp (writeOp st OpCode.POP) OpCode.UNDEF
      | .deleteOp =>
        match argument with
        | .member object computed property =>
          let st := compileMemberAndProperty fuel object computed property st
          writeOp st OpCode.DELETE
        | _ => writeOp st OpCode.TRUE
    | .binary op left right =>
      let st := compileExpression fuel left st
      let st := compileExpression fuel right st
      writeOp st op.toOpCode
    | .logical isAnd left right =>
      -- LogicalExpression: note the source jumps on JUMPIF for `&&` and
      -- JUMPNOT for `||`, then applies the AND / OR opcode.
      let (label, st) := createLabelName st "logic_end"
      let st := compileExpression fuel left st
      let st := writeOp st OpCode.TOP
      let st := writeReference st label
      let st :=
        if isAnd then
          let st := writeOp st OpCode.JUMPIF
          let st := compileExpression fuel right st
          writeOp st OpCode.AND
        else
          let st := writeOp st OpCode.JUMPNOT
          let st := compileExpression fuel right st
          writeOp st OpCode.OR
      writeLabel st label
    | .member object computed property =>
      let st := compileMemberAndProperty fuel object computed property st
      writeOp st OpCode.GET
    | .cond test consequent alternate =>
      -- ConditionalExpression: `endLabel` is minted before `altLabel`,
      -- and the source calls `writeLabel(altLabel)` (not
      -- `writeReference`) before the JUMPNOT.
      let (endLabel, st) := createLabelName st "cond_end"
      let (altLabel, st) := createLabelName st "cond_alt"
      let st := compileExpression fuel test st
      let st := writeLabel st altLabel
      let st := writeOp st OpCode.JUMPNOT
      let st := compileExpression fuel consequent st
      let st := writeReference st endLabel
      let st := writeOp st OpCode.JUMP
      let st := writeLabel st altLabel
      let st := compileExpression fuel alternate st
      writeLabel st endLabel
    | .assign op left right =>
      match left with
      | .ident name =>
        let st := compileExpression fuel right st
        if op = AOp.assign then
          writeOp (writeString st name) OpCode.OUT
        else
          -- compound to identifier: lower left, apply the operator, OUT;
          -- the source pushes no name operand before the OUT.
          let st := compileExpression fuel (.ident name) st
          writeOp (writeOp st op.toOpCode) OpCode.OUT
      | .member object computed property =>
        let st := compileMemberAndProperty fuel object computed property st
        if op = AOp.assign then
          writeOp (compileExpression fuel right st) OpCode.SET
        else
          let st := writeOp (writeOp st OpCode.TOP2) OpCode.GET
          let st := compileExpression fuel right st
          writeOp (writeOp st op.toOpCode) OpCode.SET
      | _ => st  -- neither branch applies: the source emits nothing
    | .seqE expressions => compileSeqList fuel 0 expressions st

/-- The SequenceExpression loop: for each element, lower it; pop only
when `i < arguments.length - 1` (see `argumentsLength` — never). -/
def compileSeqList (fuel : Nat) (i : Nat) (es : List Expr) (st : CState) : CState :=
  match fuel with
  | 0 => st
  | fuel + 1 =>
    match es with
    | [] => st
    | e :: rest =>
      let st := compileExpression fuel e st
      let st := if i < argumentsLength - 1 then writeOp st OpCode.POP else st
      compileSeqList fuel (i + 1) rest st

end

/-! ## `Compiler.compileStatement` -/

/-- The BreakStatement loop: scan the control block stack from the top
for the first entry with a break label. -/
def findBreakLabel : List CtrlEntry → Option String
  | [] => none
  | entry :: rest =>
    match entry.breakLabel with
    | some l => some l
    | none => findBreakLabel rest

/-- The ContinueStatement loop: scan from the top for the first entry
with a continue label. -/
def findContinueLabel : List CtrlEntry → Option String
  | [] => none
  | entry :: rest =>
    match entry.contLabel with
    | some l => some l
    | none => findContinueLabel rest

/-- The VariableDeclaration lowering.  The source rewrites the statement
into `ExpressionStatement (SequenceExpression (assignments))` — keeping
only declarators with initializers, each as `name = init` — and
recurses; that recursion is unfolded here.  Compiling `name = init`
lowers the initializer, then `STR name; OUT` (the simple-assignment
branch of `compileExpression`), and the SequenceExpression loop pops
only when `i < arguments.length - 1` (never: see `argumentsLength`).
The ExpressionStatement's own trailing POP is emitted by the caller. -/
def compileVarDecls (fuel : Nat) (i : Nat)
    (ds : List (String × Option Expr)) (st : CState) : CState :=
  match ds with
  | [] => st
  | (_, none) :: rest => compileVarDecls fuel i rest st
  | (name, some init) :: rest =>
    let st := compileExpression fuel init st
    let st := writeOp (writeString st name) OpCode.OUT
    let st := if i < argumentsLength - 1 then writeOp st OpCode.POP else st
    compileVarDecls fuel (i + 1) rest st

/-- The first SwitchStatement loop: for case `i` with a test, emit
`TOP; <test>; SEQ; ADDR caseLabel_i; JUMPIF`; for the default case emit
`ADDR defaultLabel; JUMP`. -/
def compileSwitchTests (fuel : Nat) (caseLabel defaultLabel : String) (i : Nat)
    (cases : List (Option Expr × List Stmt)) (st : CState) : CState :=
  match cases with
  | [] => st
  | c :: rest =>
    let st :=
      match c.1 with
      | some test =>
        let st := writeOp st OpCode.TOP
        let st := compileExpression fuel test st
        let st := writeOp st OpCode.SEQ
        let st := writeReference st (caseLabel ++ "_" ++ toString i)
        writeOp st OpCode.JUMPIF
      | none =>
        let st := writeReference st defaultLabel
        writeOp st OpCode.JUMP
    compileSwitchTests fuel caseLabel defaultLabel (i + 1) rest st

mutual

/-- Model of `Compiler.compileStatement`. -/
def compileStatement (fuel : Nat) (statement : Stmt) (st : CState) : CState :=
  match fuel with
  | 0 => st
  | fuel + 1 =>
    match statement with
    | .empty => st
    | .block body => compileStmtList fuel body st
    | .breakS =>
      let st :=
        match findBreakLabel st.controlBlockStack with
        | some l => writeReference st l
        | none => st
      writeOp st OpCode.JUMP
    | .continueS =>
      let st :=
        match findContinueLabel st.controlBlockStack with
        | some l => writeReference st l
        | none => st
      writeOp st OpCode.JUMP
    | .ifS test consequent alternate =>
      let (endLabel, st) := createLabelName st "cond_end"
      let (altLabel, st) := createLabelName st "cond_alt"
      let st := compileExpression fuel test st
      let st := writeReference st (if alternate.isSome then altLabel else endLabel)
      let st := writeOp st OpCode.JUMPNOT
      let st := compileStatement fuel consequent st
      let st :=
        match alternate with
        | some alt =>
          let st := writeReference st endLabel
          let st := writeOp st OpCode.JUMP
          let st := writeLabel st altLabel
          compileStatement fuel alt st
        | none => st
      writeLabel st endLabel
    | .switchS discriminant cases =>
      let (caseLabel, st) := createLabelName st "switch_case"
      let (defaultLabel, st) := createLabelName st "switch_default"
      let (endLabel, st) := createLabelName st "switch_end"
      let st := { st with controlBlockStack :=
        ⟨none, some endLabel⟩ :: st.controlBlockStack }
      let st := compileExpression fuel discriminant st
      let st := compileSwitchTests fuel caseLabel defaultLabel 0 cases st
      let st := compileSwitchBodies fuel caseLabel defaultLabel 0 cases st
      let st := writeOp st OpCode.POP
      let st := writeLabel st endLabel
      -- `this.controlBlockStack.pop;` — the source references `pop`
      -- without invoking it, so the entry pushed above is NOT removed.
      st
    | .whileS test body =>
      let (startLabel, st) := createLabelName st "while_start"
      let (endLabel, st) := createLabelName st "while_end"
      let st := { st with controlBlockStack :=
        ⟨some startLabel, some endLabel⟩ :: st.controlBlockStack }
      let st := writeLabel st startLabel
      let st := compileExpression fuel test st
      let st := writeReference st endLabel
      let st := writeOp st OpCode.JUMPNOT
      let st := compileStatement fuel body st
      -- no jump back to `startLabel` is emitted: the body falls through
      -- to the end label.
      let st := writeLabel st endLabel
      { st with controlBlockStack := st.controlBlockStack.tail }
    | .doWhileS body test =>
      let (startLabel, st) := createLabelName st "do_while_start"
      let (testLabel, st) := createLabelName st "do_while_test"
      let (endLabel, st) := createLabelName st "do_while_end"
      let st := { st with controlBlockStack :=
        ⟨some testLabel, some endLabel⟩ :: st.controlBlockStack }
      let st := writeLabel st startLabel
      let st := compileStatement fuel body st
      let st := writeLabel st testLabel
      let st := compileExpression fuel test st
      let st := writeReference st startLabel
      let st := writeOp st OpCode.JUMPIF
      let st := writeLabel st endLabel
      { st with controlBlockStack := st.controlBlockStack.tail }
    | .forS init test update body =>
      let (startLabel, st) := createLabelName st "for_start"
      let (updateLabel, st) := createLabelName st "for_update"
      let (endLabel, st) := createLabelName st "for_end"
      let st := { st with controlBlockStack :=
        ⟨some updateLabel, some endLabel⟩ :: st.controlBlockStack }
      -- the init clause is compiled as a statement (an expression init
      -- is wrapped as an ExpressionStatement); both forms unfolded:
      let st :=
        match init with
        | some (.inl ds) => writeOp (compileVarDecls fuel 0 ds st) OpCode.POP
        | some (.inr e) => writeOp (compileExpression fuel e st) OpCode.POP
        | none => st
      let st := writeLabel st startLabel
      let st := compileStatement fuel body st
      let st := writeLabel st updateLabel
      let st :=
        match update with
        | some u => writeOp (compileExpression fuel u st) OpCode.POP
        | none => st
      let st :=
        match test with
        | some t =>
          let st := compileExpression fuel t st
          let st := writeReference st startLabel
          writeOp st OpCode.JUMPIF
        | none =>
          let st := writeReference st startLabel
          writeOp st OpCode.JUMP
      let st := writeLabel st endLabel
      { st with controlBlockStack := st.controlBlockStack.tail }
    | .varDecl declarations =>
      -- rewritten to `ExpressionStatement (SequenceExpression …)`; the
      -- ExpressionStatement recursion adds the trailing POP.
      writeOp (compileVarDecls fuel 0 declarations st) OpCode.POP
    | .funcDecl name paramCount labelName =>
      let st := writeOp st OpCode.NULL
      let st := writeNumber st (Int.ofNat paramCount)
      let st := writeReference st labelName
      let st := writeOp st OpCode.FUNC
      let st := writeString st name
      let st := writeOp st OpCode.OUT
      writeOp st OpCode.POP
    | .returnS argument =>
      let st :=
        match argument with
        | some a => compileExpression fuel a st
        | none => writeOp st OpCode.UNDEF
      writeOp st OpCode.RET
    | .exprStmt expression =>
      writeOp (compileExpression fuel expression st) OpCode.POP

/-- BlockStatement bodies and switch-case consequents: compile each
statement in order. -/
def compileStmtList (fuel : Nat) (body : List Stmt) (st : CState) : CState :=
  match fuel with
  | 0 => st
  | fuel + 1 =>
    match body with
    | [] => st
    | s :: rest => compileStmtList fuel rest (compileStatement fuel s st)

/-- The second SwitchStatement loop: define each case's label (the
default case's label for a test-less case) and compile its body. -/
def compileSwitchBodies (fuel : Nat) (caseLabel defaultLabel : String) (i : Nat)
    (cases : List (Option Expr × List Stmt)) (st : CState) : CState :=
  match fuel with
  | 0 => st
  | fuel + 1 =>
    match cases with
    | [] => st
    | c :: rest =>
      let st :=
        match c.1 with
        | some _ => writeLabel st (caseLabel ++ "_" ++ toString i)
        | none => writeLabel st defaultLabel
      let st := compileStmtList fuel c.2 st
      compileSwitchBodies fuel caseLabel defaultLabel (i + 1) rest st

end

/-! ## `Compiler.compileBlock` and the public pipeline -/

/-- A compilation block as produced by the parser pre-pass: the
script-root (`Program`) variant.  `label` is the parser-assigned entry
label (`.main_<uid>`), `declarations` the hoisted names in insertion
order. -/
structure ProgramBlock where
  label : String
  declarations : List String
  body : List Stmt

/-- Model of `compileBlock`, Program case: the entry label, `STR name; VAR` per
hoisted name, the body, then a bare `RET` (no UNDEF before it). -/
def compileBlockProgram (fuel : Nat) (p : ProgramBlock) (st : CState) : CState :=
  let st := writeLabel st p.label
  let st := p.declarations.foldl (fun st name => writeOp (writeString st name) OpCode.VAR) st
  let st := compileStmtList fuel p.body st
  writeOp st OpCode.RET

/-- The parameter-binding prologue of a function block: for parameter
`i`, `STR name; VAR; TOP; NUM i; GET; STR name; OUT; POP`. -/
def compileParams (i : Nat) (params : List String) (st : CState) : CState :=
  match params with
  | [] => st
  | name :: rest =>
    let st := writeOp (writeString st name) OpCode.VAR
    let st := writeOp st OpCode.TOP
    let st := writeNumber st (Int.ofNat i)
    let st := writeOp st OpCode.GET
    let st := writeOp (writeString st name) OpCode.OUT
    let st := writeOp st OpCode.POP
    compileParams (i + 1) rest st

/-- Model of `compileBlock`, FunctionExpression / FunctionDeclaration case: the
label, the parameter prologue, `POP` (discard the arguments array), the
hoisted declarations, the body, then `UNDEF; RET`. -/
def compileBlockFunction (fuel : Nat) (labelName : String) (params : List String)
    (declarations : List String) (body : Stmt) (st : CState) : CState :=
  let st := writeLabel st labelName
  let st := compileParams 0 params st
  let st := writeOp st OpCode.POP
  let st := declarations.foldl (fun st name => writeOp (writeString st name) OpCode.VAR) st
  let st := compileStatement fuel body st
  let st := writeOp st OpCode.UNDEF
  writeOp st OpCode.RET

/-- Model of `Compiler.compile` for a script with no nested function blocks: the
parser mints the script label first (so `.main_1`, and the lowering's
UniqueId continues at 2), then every block is compiled into one fresh
instruction buffer. -/
def compileProgram (fuel : Nat) (p : ProgramBlock) : CState :=
  compileBlockProgram fuel p { instructions := [], controlBlockStack := [], nextId := 2 }

/-! ## `Compiler.toNumberArray` — the assembly / link pass

One `Code` cell per opcode byte or immediate (see the header note). -/

inductive Code where
  | op (b : Nat)
  | num (n : Int)
  | addr (a : Nat)
  | str (s : String)
deriving DecidableEq

structure LabelInfo where
  address : Nat
  references : List Nat
deriving DecidableEq

/-- Model of `labelMap.get` (a JS `Map` keyed by label name). -/
def amGet : List (String × LabelInfo) → String → Option LabelInfo
  | [], _ => none
  | (k, v) :: rest, name => if k = name then some v else amGet rest name

/-- Model of `labelMap.set`: update in place, else append (insertion order, as a
JS `Map`). -/
def amSet : List (String × LabelInfo) → String → LabelInfo → List (String × LabelInfo)
  | [], name, info => [(name, info)]
  | (k, v) :: rest, name, info =>
    if k = name then (k, info) :: rest else (k, v) :: amSet rest name info

/-- The first pass of `toNumberArray`: lay out code cells, record each
label's address (a later definition of the same name overwrites the
address) and each reference's offset, emitting a placeholder cell. -/
def toNumberArrayAux : List AsmInstruction → List (String × LabelInfo) → List Code →
    List (String × LabelInfo) × List Code
  | [], m, codes => (m, codes)
  | ins :: rest, m, codes =>
    match ins with
    | .label name =>
      let info := (amGet m name).getD ⟨0, []⟩
      toNumberArrayAux rest (amSet m name { info with address := codes.length }) codes
    | .reference lbl =>
      let info := (amGet m lbl).getD ⟨0, []⟩
      toNumberArrayAux rest
        (amSet m lbl { info with references := info.references ++ [codes.length] })
        (codes ++ [Code.addr 0])
    | .opcode c => toNumberArrayAux rest m (codes ++ [Code.op c])
    | .data (.num n) => toNumberArrayAux rest m (codes ++ [Code.num n])
    | .data (.str s) => toNumberArrayAux rest m (codes ++ [Code.str s])
    | .comment _ => toNumberArrayAux rest m codes

/-- The second pass: patch every reference offset with its label's
resolved address (never-defined labels patch their default address 0). -/
def patchRefs (m : List (String × LabelInfo)) (codes : List Code) : List Code :=
  m.foldl (fun codes entry =>
    entry.2.references.foldl (fun codes off => codes.set off (Code.addr entry.2.address)) codes)
    codes

def toNumberArray (st : CState) : List Code :=
  let (m, codes) := toNumberArrayAux st.instructions [] []
  patchRefs m codes

/-! ## `src/virtual-machine.ts` — runtime values

The runtime value universe the modelled opcodes manipulate.  `obj`
holds a heap reference (JS objects are reference values; the `ARR` and
`OBJ` opcodes allocate, and `GET`/`SET`/`DELETE` mutate through the
reference).  `closure` is the function value built by `FUNC`: it stores
the raw popped operands alongside the capturing scope. -/
inductive Value where
  | undef
  | null
  | bool (b : Bool)
  | num (n : Int)
  | str (s : String)
  | obj (r : Nat)
  | closure (scopeId : Nat) (addr : Value) (arity : Value) (fname : Value)
deriving DecidableEq

/-- JS truthiness (no `NaN` in the integer fragment). -/
def jsTruthy : Value → Bool
  | .undef => false
  | .null => false
  | .bool b => b
  | .num n => n != 0
  | .str s => s != ""
  | .obj _ => true
  | .closure _ _ _ _ => true

/-- JS `ToString` on the modelled values (used when a value becomes a
property key, e.g. `this.global[name] = value`). -/
def jsToString : Value → String
  | .undef => "undefined"
  | .null => "null"
  | .bool true => "true"
  | .bool false => "false"
  | .num n => toString n
  | .str s => s
  | .obj _ => "[object Object]"
  | .closure _ _ _ _ => "function"

/-- JS `Number(string)` restricted to optionally-signed decimal integer
literals (the only strings the modelled programs coerce); `""` is `0`,
anything else is `NaN` (`none`). -/
def strToNumber (s : String) : Option Int :=
  if s = "" then some 0
  else
    let (neg, ds) := match s.toList with
      | '-' :: rest => (true, rest)
      | l => (false, l)
    if ds ≠ [] ∧ ds.all Char.isDigit then
      let n := ds.foldl (fun acc c => acc * 10 + (c.toNat - '0'.toNat)) 0
      some (if neg then -(Int.ofNat n) else Int.ofNat n)
    else none

/-- JS `ToNumber`; `none` is `NaN`.  Objects and closures would go
through `ToPrimitive`, which lies outside the modelled fragment. -/
def toNumberV : Value → Option Int
  | .undef => none
  | .null => some 0
  | .bool b => some (if b then 1 else 0)
  | .num n => some n
  | .str s => strToNumber s
  | .obj _ => none
  | .closure _ _ _ _ => none

/-- JS `ToUint32` on the integer fragment. -/
def toUint32 (n : Int) : Nat := (n.emod 4294967296).toNat

/-- JS `ToInt32` on the integer fragment. -/
def toInt32 (n : Int) : Int := ((n + 2147483648).emod 4294967296) - 2147483648

/-- JS strict equality (`===`) on the modelled values.  Objects compare
by reference; closures, which JS compares by reference, are compared
structurally (no two distinct closures with identical components arise
in the evaluated programs). -/
def jsStrictEq : Value → Value → Bool
  | .undef, .undef => true
  | .null, .null => true
  | .bool a, .bool b => a == b
  | .num a, .num b => a == b
  | .str a, .str b => a == b
  | .obj a, .obj b => a == b
  | .closure s a n f, .closure s' a' n' f' => s == s' && a == a' && n == n' && f == f'
  | _, _ => false

/-- JS loose equality (`==`) on the modelled values, following the ES5
algorithm: `null`/`undefined` equate with each other only; booleans
coerce to number; a number and a string compare after `ToNumber` on the
string; an object against a primitive would go through `ToPrimitive`
(outside the fragment — `false` here, never exercised). -/
def jsEq : Value → Value → Bool
  | .undef, .undef => true
  | .undef, .null => true
  | .null, .undef => true
  | .null, .null => true
  | .num a, .num b => a == b
  | .str a, .str b => a == b
  | .bool a, .bool b => a == b
  | .num a, .str b => (strToNumber b).any (· == a)
  | .str a, .num b => (strToNumber a).any (· == b)
  | .bool a, .num b => (if a then (1 : Int) else 0) == b
  | .num a, .bool b => a == (if b then (1 : Int) else 0)
  | .bool a, .str b => (strToNumber b).any (· == if a then (1 : Int) else 0)
  | .str a, .bool b => (strToNumber a).any (· == if b then (1 : Int) else 0)
  | .obj a, .obj b => a == b
  | .closure s a n f, .closure s' a' n' f' => s == s' && a == a' && n == n' && f == f'
  | _, _ => false

/-- JS `<` on the modelled values: two strings compare lexicographically,
anything else through `ToNumber` (`NaN` makes the comparison false). -/
def jsLT : Value → Value → Bool
  | .str a, .str b => a < b
  | l, r =>
    match toNumberV l, toNumberV r with
    | some a, some b => a < b
    | _, _ => false

def jsLTE : Value → Value → Bool
  | .str a, .str b => a ≤ b
  | l, r =>
    match toNumberV l, toNumberV r with
    | some a, some b => a ≤ b
    | _, _ => false

/-! ## Scope and GlobalScope -/

/-- A `Map` keyed by runtime values (JS `Map` key equality is
SameValueZero, which coincides with strict equality on the fragment):
lookup. -/
def mapGetV : List (Value × Value) → Value → Option Value
  | [], _ => none
  | (k, v) :: rest, key => if k = key then some v else mapGetV rest key

/-- Model of `Map.set`: update in place, else append. -/
def mapSetV : List (Value × Value) → Value → Value → List (Value × Value)
  | [], key, v => [(key, v)]
  | (k, v') :: rest, key, v =>
    if k = key then (k, v) :: rest else (k, v') :: mapSetV rest key v

/-- String-keyed property map for heap objects and the ambient global
environment: lookup. -/
def envGet : List (String × Value) → String → Option Value
  | [], _ => none
  | (k, v) :: rest, key => if k = key then some v else envGet rest key

def envSet : List (String × Value) → String → Value → List (String × Value)
  | [], key, v => [(key, v)]
  | (k, v') :: rest, key, v =>
    if k = key then (k, v) :: rest else (k, v') :: envSet rest key v

/-- Model of `delete object[key]`: remove the property. -/
def envDel : List (String × Value) → String → List (String × Value)
  | [], _ => []
  | (k, v) :: rest, key => if k = key then rest else (k, v) :: envDel rest key

/-- One `Scope` object: `GlobalScope` instances have `isGlobal` set (and
`parent` none — its constructor calls `super()` with no parent). -/
structure ScopeData where
  isGlobal : Bool
  parent : Option Nat
  content : List (Value × Value)
deriving DecidableEq

/-- Model of `Scope.load`, walking the parent chain, with the `GlobalScope.load`
override applied when the walk reaches a global scope: its own content
first (`super.load`), then `this.global.hasOwnProperty(name)`.  The
chain walk carries fuel (any bound above the chain length is exact). -/
def scopeLoad (fuel : Nat) (scopes : List ScopeData) (g : List (String × Value))
    (sid : Nat) (name : Value) : Except String Value :=
  match fuel with
  | 0 => .error "scope chain exhausted"
  | fuel + 1 =>
    match scopes.get? sid with
    | none => .error "invalid scope"
    | some sc =>
      match mapGetV sc.content name with
      | some v => .ok v
      | none =>
        match sc.parent with
        | some p => scopeLoad fuel scopes g p name
        | none =>
          if sc.isGlobal then
            match envGet g (jsToString name) with
            | some v => .ok v
            | none => .error ("Variable " ++ jsToString name ++ " not found")
          else .error ("Variable " ++ jsToString name ++ " not found")

/-- Model of `Scope.out` with the `GlobalScope.out` override: walk the chain and
assign where the name is bound, returning the assigned value; at a
global scope with no binding anywhere, fall back to assigning in the
ambient environment — and return `undefined` (the source's fallback
path has no `return` of the value). -/
def scopeOut (fuel : Nat) (scopes : List ScopeData) (g : List (String × Value))
    (sid : Nat) (name : Value) (v : Value) :
    Except String (List ScopeData × List (String × Value) × Value) :=
  match fuel with
  | 0 => .error "scope chain exhausted"
  | fuel + 1 =>
    match scopes.get? sid with
    | none => .error "invalid scope"
    | some sc =>
      if (mapGetV sc.content name).isSome then
        .ok (scopes.set sid { sc with content := mapSetV sc.content name v }, g, v)
      else
        match sc.parent with
        | some p => scopeOut fuel scopes g p name v
        | none =>
          if sc.isGlobal then
            .ok (scopes, envSet g (jsToString name) v, Value.undef)
          else .error ("Variable " ++ jsToString name ++ " not found")

/-- Model of `Scope.var`: declare in the given scope with value `undefined`. -/
def scopeVar (scopes : List ScopeData) (sid : Nat) (name : Value) : List ScopeData :=
  match scopes.get? sid with
  | none => scopes
  | some sc => scopes.set sid { sc with content := mapSetV sc.content name Value.undef }

/-! ## The VM frame and the dispatch loop -/

/-- A VM frame plus the shared mutable world: the scope store (scopes
are identified by index; closures and parent links refer into it), the
ambient global object, and the heap of JS objects.  `pieceOfCode` is
the source's name for the program counter. -/
structure VMState where
  scopes : List ScopeData
  curScope : Nat
  globalEnv : List (String × Value)
  heap : List (List (String × Value))
  codes : List Code
  pieceOfCode : Nat
  stack : List Value
deriving DecidableEq

/-- Model of `Array.prototype.pop`: popping an empty stack yields `undefined`. -/
def popV : List Value → Value × List Value
  | [] => (Value.undef, [])
  | v :: rest => (v, rest)

inductive StepResult where
  | next (s : VMState)
  | halt (v : Value) (s : VMState)
  | fault (msg : String)
deriving DecidableEq

/-- Model of `loadNumber`: read the 8-byte IEEE-754 immediate (one `Code.num`
cell) and push it. -/
def loadNumber (s : VMState) : StepResult :=
  match s.codes.get? s.pieceOfCode with
  | some (.num n) => .next { s with pieceOfCode := s.pieceOfCode + 1, stack := .num n :: s.stack }
  | _ => .fault "malformed number immediate"

/-- Model of `loadAddress`: read the 4-byte big-endian address (one `Code.addr`
cell) and push it as a number. -/
def loadAddress (s : VMState) : StepResult :=
  match s.codes.get? s.pieceOfCode with
  | some (.addr a) => .next { s with pieceOfCode := s.pieceOfCode + 1, stack := .num (Int.ofNat a) :: s.stack }
  | _ => .fault "malformed address immediate"

/-- Model of `loadString`: read the null-terminated UTF-16 immediate (one
`Code.str` cell) and push it. -/
def loadString (s : VMState) : StepResult :=
  match s.codes.get? s.pieceOfCode with
  | some (.str v) => .next { s with pieceOfCode := s.pieceOfCode + 1, stack := .str v :: s.stack }
  | _ => .fault "malformed string immediate"

/-- Binary `+`: string concatenation when either operand is a string,
else numeric addition (`none` = the result leaves the integer
fragment). -/
def jsAdd (l r : Value) : Option Value :=
  match l, r with
  | .str a, _ => some (.str (a ++ jsToString r))
  | _, .str b => some (.str (jsToString l ++ b))
  | _, _ =>
    match toNumberV l, toNumberV r with
    | some a, some b => some (.num (a + b))
    | _, _ => none

/-- Numeric binary operators other than `+`. -/
def jsArith (op : Nat) (l r : Value) : Option Value :=
  match toNumberV l, toNumberV r with
  | some a, some b =>
    if op = OpCode.SUB then some (.num (a - b))
    else if op = OpCode.MUL then some (.num (a * b))
    else if op = OpCode.EXP then
      if 0 ≤ b then some (.num (a ^ b.toNat)) else none
    else if op = OpCode.DIV then
      if b ≠ 0 ∧ b ∣ a then some (.num (a / b)) else none
    else if op = OpCode.MOD then
      if b ≠ 0 then some (.num (Int.tmod a b)) else none
    else none
  | _, _ => none

/-- The `ToInt32` of an operand, with `ToInt32(NaN) = 0`. -/
def opInt32 (v : Value) : Int := toInt32 ((toNumberV v).getD 0)

/-- The bitwise binary operators, computed on the 32-bit patterns. -/
def jsBitwise (op : Nat) (l r : Value) : Value :=
  let ua := toUint32 (opInt32 l)
  let ub := toUint32 (opInt32 r)
  if op = OpCode.BOR then .num (toInt32 (Int.ofNat (Nat.lor ua ub)))
  else if op = OpCode.BXOR then .num (toInt32 (Int.ofNat (Nat.xor ua ub)))
  else if op = OpCode.BAND then .num (toInt32 (Int.ofNat (Nat.land ua ub)))
  else if op = OpCode.RSHIFT then .num (Int.fdiv (toInt32 (Int.ofNat ua)) (Int.ofNat (2 ^ (ub % 32))))
  else if op = OpCode.URSHIFT then .num (Int.ofNat (ua / 2 ^ (ub % 32)))
  else .num (toInt32 (Int.ofNat (ua * 2 ^ (ub % 32) % 4294967296)))

/-- The `typeof` operator. -/
def jsTypeof : Value → String
  | .undef => "undefined"
  | .null => "object"
  | .bool _ => "boolean"
  | .num _ => "number"
  | .str _ => "string"
  | .obj _ => "object"
  | .closure _ _ _ _ => "function"

/-- The scope-walk fuel: one more than the store size always covers the
whole parent chain. -/
def chainFuel (s : VMState) : Nat := s.scopes.length + 1

/-- One iteration of `VirtualMachine.run`'s dispatch switch.  The
opcode byte is compared against the cases in the source's order (a JS
`switch` runs the first matching case), so byte `0x73` dispatches as
`BAND`, the earlier of the two cases bearing that value.  `CALL`, `NEW`
and `INSOF` spawn or interrogate host function objects and lie outside
the fragment the claims exercise; the model faults on them. -/
def step (s0 : VMState) : StepResult :=
  match s0.codes.get? s0.pieceOfCode with
  | none => .fault "Unexpected code"
  | some (.num _) => .fault "Unexpected code"
  | some (.addr _) => .fault "Unexpected code"
  | some (.str _) => .fault "Unexpected code"
  | some (.op b) =>
    let s := { s0 with pieceOfCode := s0.pieceOfCode + 1 }
    if b = OpCode.NOP then .next s
    else if b = OpCode.UNDEF then .next { s with stack := .undef :: s.stack }
    else if b = OpCode.NULL then .next { s with stack := .null :: s.stack }
    else if b = OpCode.OBJ then
      .next { s with heap := s.heap ++ [[]], stack := .obj s.heap.length :: s.stack }
    else if b = OpCode.ARR then
      -- `[]` is also a fresh heap object; its `length` bookkeeping is
      -- outside the modelled fragment.
      .next { s with heap := s.heap ++ [[]], stack := .obj s.heap.length :: s.stack }
    else if b = OpCode.TRUE then .next { s with stack := .bool true :: s.stack }
    else if b = OpCode.FALSE then .next { s with stack := .bool false :: s.stack }
    else if b = OpCode.NUM then loadNumber s
    else if b = OpCode.ADDR then loadAddress s
    else if b = OpCode.STR then loadString s
    else if b = OpCode.POP then .next { s with stack := s.stack.tail }
    else if b = OpCode.TOP then
      -- `stack[stack.length - 1]` of an empty array is `undefined`.
      .next { s with stack := (s.stack.headD .undef) :: s.stack }
    else if b = OpCode.TOP2 then
      .next { s with stack :=
        ((s.stack.get? 0).getD .undef) :: ((s.stack.get? 1).getD .undef) :: s.stack }
    else if b = OpCode.VAR then
      let (name, rest) := popV s.stack
      .next { s with scopes := scopeVar s.scopes s.curScope name, stack := rest }
    else if b = OpCode.LOAD then
      let (name, rest) := popV s.stack
      match scopeLoad (chainFuel s) s.scopes s.globalEnv s.curScope name with
      | .ok v => .next { s with stack := v :: rest }
      | .error e => .fault e
    else if b = OpCode.OUT then
      -- pops the name first, the value second (JS evaluates the two
      -- `pop()` arguments left to right).
      let (name, rest) := popV s.stack
      let (v, rest) := popV rest
      match scopeOut (chainFuel s) s.scopes s.globalEnv s.curScope name v with
      | .ok (scopes', g', ret) =>
        .next { s with scopes := scopes', globalEnv := g', stack := ret :: rest }
      | .error e => .fault e
    else if b = OpCode.JUMP then
      let (addr, rest) := popV s.stack
      match addr with
      | .num n => if 0 ≤ n then .next { s with pieceOfCode := n.toNat, stack := rest }
                  else .fault "Unexpected code"
      | _ => .fault "Unexpected code"
    else if b = OpCode.JUMPIF then
      let (addr, rest) := popV s.stack
      let (test, rest) := popV rest
      if jsTruthy test then
        match addr with
        | .num n => if 0 ≤ n then .next { s with pieceOfCode := n.toNat, stack := rest }
                    else .fault "Unexpected code"
        | _ => .fault "Unexpected code"
      else .next { s with stack := rest }
    else if b = OpCode.JUMPNOT then
      let (addr, rest) := popV s.stack
      let (test, rest) := popV rest
      if jsTruthy test then .next { s with stack := rest }
      else
        match addr with
        | .num n => if 0 ≤ n then .next { s with pieceOfCode := n.toNat, stack := rest }
                    else .fault "Unexpected code"
        | _ => .fault "Unexpected code"
    else if b = OpCode.FUNC then
      let (addr, rest) := popV s.stack
      let (len, rest) := popV rest
      let (name, rest) := popV rest
      .next { s with stack := .closure s.curScope addr len name :: rest }
    else if b = OpCode.CALL then .fault "call outside modelled fragment"
    else if b = OpCode.NEW then .fault "new outside modelled fragment"
    else if b = OpCode.RET then
      let (v, rest) := popV s.stack
      .halt v { s with stack := rest }
    else if b = OpCode.GET then
      let (key, rest) := popV s.stack
      let (object, rest) := popV rest
      match object with
      | .obj r =>
        let v := (envGet ((s.heap.get? r).getD []) (jsToString key)).getD .undef
        .next { s with stack := v :: rest }
      | _ => .fault "property access outside modelled fragment"
    else if b = OpCode.SET then
      let (v, rest) := popV s.stack
      let (key, rest) := popV rest
      let (object, rest) := popV rest
      match object with
      | .obj r =>
        .next { s with
          heap := s.heap.set r (envSet ((s.heap.get? r).getD []) (jsToString key) v),
          stack := v :: rest }
      | _ => .fault "property access outside modelled fragment"
    else if b = OpCode.IN then
      let (key, rest) := popV s.stack
      let (object, rest) := popV rest
      match object with
      | .obj r =>
        let has := (envGet ((s.heap.get? r).getD []) (jsToString key)).isSome
        .next { s with stack := .bool has :: rest }
      | _ => .fault "property access outside modelled fragment"
    else if b = OpCode.DELETE then
      -- the DELETE case of the source has no `break`: after pushing the
      -- deletion result, execution falls through into the EQ case,
      -- which pops two operands and pushes their loose equality.
      let (key, rest) := popV s.stack
      let (object, rest) := popV rest
      match object with
      | .obj r =>
        let stack1 : List Value :=
          .bool true :: rest  -- `delete object[key]` on a plain object yields true
        let heap1 := s.heap.set r (envDel ((s.heap.get? r).getD []) (jsToString key))
        let (right, rest2) := popV stack1
        let (left, rest2) := popV rest2
        .next { s with heap := heap1, stack := .bool (jsEq left right) :: rest2 }
      | _ => .fault "property access outside modelled fragment"
    else if b = OpCode.EQ then
      let (right, rest) := popV s.stack
      let (left, rest) := popV rest
      .next { s with stack := .bool (jsEq left right) :: rest }
    else if b = OpCode.NEQ then
      let (right, rest) := popV s.stack
      let (left, rest) := popV rest
      .next { s with stack := .bool (!jsEq left right) :: rest }
    else if b = OpCode.SEQ then
      let (right, rest) := popV s.stack
      let (left, rest) := popV rest
      .next { s with stack := .bool (jsStrictEq left right) :: rest }
    else if b = OpCode.SNEQ then
      let (right, rest) := popV s.stack
      let (left, rest) := popV rest
      .next { s with stack := .bool (!jsStrictEq left right) :: rest }
    else if b = OpCode.LT then
      let (right, rest) := popV s.stack
      let (left, rest) := popV rest
      .next { s with stack := .bool (jsLT left right) :: rest }
    else if b = OpCode.LTE then
      let (right, rest) := popV s.stack
      let (left, rest) := popV rest
      .next { s with stack := .bool (jsLTE left right) :: rest }
    else if b = OpCode.GT then
      let (right, rest) := popV s.stack
      let (left, rest) := popV rest
      .next { s with stack := .bool (jsLT right left) :: rest }
    else if b = OpCode.GTE then
      let (right, rest) := popV s.stack
      let (left, rest) := popV rest
      .next { s with stack := .bool (jsLTE right left) :: rest }
    else if b = OpCode.ADD then
      let (right, rest) := popV s.stack
      let (left, rest) := popV rest
      match jsAdd left right with
      | some v => .next { s with stack := v :: rest }
      | none => .fault "arithmetic outside modelled fragment"
    else if b = OpCode.SUB ∨ b = OpCode.MUL ∨ b = OpCode.EXP ∨ b = OpCode.DIV ∨ b = OpCode.MOD then
      let (right, rest) := popV s.stack
      let (left, rest) := popV rest
      match jsArith b left right with
      | some v => .next { s with stack := v :: rest }
      | none => .fault "arithmetic outside modelled fragment"
    else if b = OpCode.BNOT then
      let (arg, rest) := popV s.stack
      .next { s with stack := .num (-(opInt32 arg) - 1) :: rest }
    else if b = OpCode.BOR ∨ b = OpCode.BXOR ∨ b = OpCode.BAND
         ∨ b = OpCode.RSHIFT ∨ b = OpCode.URSHIFT then
      -- `LSHIFT`'s case value equals `BAND`'s (0x73), so the BAND test
      -- above already captures it, exactly as the source's switch does.
      let (right, rest) := popV s.stack
      let (left, rest) := popV rest
      .next { s with stack := jsBitwise b left right :: rest }
    else if b = OpCode.OR then
      let (right, rest) := popV s.stack
      let (left, rest) := popV rest
      .next { s with stack := (if jsTruthy left then left else right) :: rest }
    else if b = OpCode.AND then
      let (right, rest) := popV s.stack
      let (left, rest) := popV rest
      .next { s with stack := (if jsTruthy left then right else left) :: rest }
    else if b = OpCode.NOT then
      let (arg, rest) := popV s.stack
      .next { s with stack := .bool (!jsTruthy arg) :: rest }
    else if b = OpCode.INSOF then .fault "instanceof outside modelled fragment"
    else if b = OpCode.TYPEOF then
      let (arg, rest) := popV s.stack
      .next { s with stack := .str (jsTypeof arg) :: rest }
    else .fault "Unexpected code"

inductive RunResult where
  | done (v : Value) (s : VMState)
  | fault (msg : String)
  | timeout
deriving DecidableEq

/-- The dispatch loop: iterate `step` until `RET` halts the frame. -/
def run : Nat → VMState → RunResult
  | 0, _ => .timeout
  | fuel + 1, s =>
    match step s with
    | .next s' => run fuel s'
    | .halt v s' => .done v s'
    | .fault m => .fault m

/-! ## The compile-and-execute pipeline -/

/-- A fresh machine over the assembled code: one `GlobalScope` (with an
empty ambient environment), execution starting at the script-root
label's resolved address, which is 0 (the root block is laid out
first). -/
def initialVM (codes : List Code) : VMState :=
  { scopes := [⟨true, none, []⟩], curScope := 0, globalEnv := [], heap := [],
    codes := codes, pieceOfCode := 0, stack := [] }

/-- Model of `run(source)`: compile the script block, assemble, execute. -/
def runScript (fuel : Nat) (p : ProgramBlock) : RunResult :=
  run fuel (initialVM (toNumberArray (compileProgram 64 p)))

/-- The value a script run returns. -/
def scriptValue (fuel : Nat) (p : ProgramBlock) : Option Value :=
  match runScript fuel p with
  | .done v _ => some v
  | _ => none

/-- The final value of a global-scope variable after a script run. -/
def scriptVar (fuel : Nat) (p : ProgramBlock) (name : String) : Option Value :=
  match runScript fuel p with
  | .done _ s => (s.scopes.get? 0).bind (fun sc => mapGetV sc.content (.str name))
  | _ => none

/-- The final value of an ambient-global property after a script run. -/
def scriptAmbient (fuel : Nat) (p : ProgramBlock) (name : String) : Option Value :=
  match runScript fuel p with
  | .done _ s => envGet s.globalEnv name
  | _ => none

/-! ## Concrete inputs used by the theorems -/

/-- A fresh compiler state (`Compiler.clear`). -/
def st0 : CState := { instructions := [], controlBlockStack := [], nextId := 1 }

/-- The script `x = 2; while (x) x = x - 1;` with `x` hoisted. -/
def prog1 : ProgramBlock :=
  { label := ".main_1", declarations := ["x"],
    body := [.exprStmt (.assign .assign (.ident "x") (.lit (.num 2))),
             .whileS (.ident "x")
               (.exprStmt (.assign .assign (.ident "x")
                 (.binary .sub (.ident "x") (.lit (.num 1)))))] }

/-- The script `var x; 0 && (x = 1);` — the right operand of `&&` under a
falsy left operand. -/
def prog3a : ProgramBlock :=
  { label := ".main_1", declarations := ["x"],
    body := [.varDecl [("x", none)],
             .exprStmt (.logical true (.lit (.num 0))
               (.assign .assign (.ident "x") (.lit (.num 1))))] }

/-- The script `var y; 1 || (y = 2);` — the right operand of `||` under a
truthy left operand. -/
def prog3c : ProgramBlock :=
  { label := ".main_1", declarations := ["y"],
    body := [.varDecl [("y", none)],
             .exprStmt (.logical false (.lit (.num 1))
               (.assign .assign (.ident "y") (.lit (.num 2))))] }

/-- The script `return false || 5;` — the value a short-circuiting `||`
produces when the left operand is falsy. -/
def prog3b : ProgramBlock :=
  { label := ".main_1", declarations := [],
    body := [.returnS (some (.logical false (.lit (.bool false)) (.lit (.num 5))))] }

/-- The script `(1, 2);` — a sequence expression as a statement. -/
def prog4 : ProgramBlock :=
  { label := ".main_1", declarations := [],
    body := [.exprStmt (.seqE [.lit (.num 1), .lit (.num 2)])] }

/-- The script `var x = 5; var y = 2; x -= y;`. -/
def prog8 : ProgramBlock :=
  { label := ".main_1", declarations := ["x", "y"],
    body := [.varDecl [("x", some (.lit (.num 5)))],
             .varDecl [("y", some (.lit (.num 2)))],
             .exprStmt (.assign .subA (.ident "x") (.ident "y"))] }

/-- The script `var r = 6 << 3;`. -/
def prog9 : ProgramBlock :=
  { label := ".main_1", declarations := ["r"],
    body := [.varDecl [("r", some (.binary .lshift (.lit (.num 6)) (.lit (.num 3))))]] }

/-- The script `1;` — one expression statement, no return. -/
def prog10 : ProgramBlock :=
  { label := ".main_1", declarations := [],
    body := [.exprStmt (.lit (.num 1))] }

/-- A machine about to execute `OUT` with one global scope holding
`content`, ambient environment `g`, and the given stack. -/
def mkOutState (content : List (Value × Value)) (g : List (String × Value))
    (stack : List Value) : VMState :=
  { scopes := [⟨true, none, content⟩], curScope := 0, globalEnv := g, heap := [],
    codes := [Code.op OpCode.OUT], pieceOfCode := 0, stack := stack }

/-- A machine about to execute `DELETE` with stack `key "a"`, an object
reference, and a value `true` beneath them, the heap object owning one
property `a`. -/
def c7state : VMState :=
  { scopes := [⟨true, none, []⟩], curScope := 0, globalEnv := [],
    heap := [[("a", Value.num 1)]],
    codes := [Code.op OpCode.DELETE], pieceOfCode := 0,
    stack := [.str "a", .obj 0, .bool true] }

/-- The machine of `c7state` after one dispatch: the property is gone,
and the value beneath the operands was consumed as well. -/
def c7after : VMState :=
  { scopes := [⟨true, none, []⟩], curScope := 0, globalEnv := [],
    heap := [[]],
    codes := [Code.op OpCode.DELETE], pieceOfCode := 1,
    stack := [.bool true] }

/-- A machine about to execute byte `0x73` with operands 6 and 3. -/
def c9state : VMState :=
  { scopes := [⟨true, none, []⟩], curScope := 0, globalEnv := [], heap := [],
    codes := [Code.op 0x73], pieceOfCode := 0, stack := [.num 3, .num 6] }

/-- The machine of `c9state` after one dispatch: `6 & 3 = 2` was pushed
(not `6 << 3 = 48`). -/
def c9after : VMState :=
  { scopes := [⟨true, none, []⟩], curScope := 0, globalEnv := [], heap := [],
    codes := [Code.op 0x73], pieceOfCode := 1, stack := [.num 2] }

/-- A machine about to execute `RET` on an empty operand stack. -/
def retState : VMState :=
  { scopes := [⟨true, none, []⟩], curScope := 0, globalEnv := [], heap := [],
    codes := [Code.op OpCode.RET], pieceOfCode := 0, stack := [] }

/-! ## The claims -/

/-- C1: the claim states that lowering a WhileStatement emits
`label start; test; ADDR end; JUMPNOT; body; ADDR start; JUMP;
label end`, so that the body repeats while the test is truthy.  The
code emits no jump back to the start label: for `while (c) ;` the
lowered sequence ends at `label end` straight after the body, and
running `x = 2; while (x) x = x - 1;` leaves `x = 1` — the body ran
exactly once instead of twice. -/
theorem while_lowering_omits_loopback :
    (compileStatement 32 (.whileS (.ident "c") .empty) st0).instructions =
      [.label ".while_start_1", .opcode OpCode.STR, .data (.str "c"), .opcode OpCode.LOAD,
       .opcode OpCode.ADDR, .reference ".while_end_2", .opcode OpCode.JUMPNOT,
       .label ".while_end_2"]
    ∧ scriptVar 1000 prog1 "x" = some (Value.num 1)
    ∧ Value.num 1 ≠ Value.num 0 := by
  refine ⟨by decide, by decide, by decide⟩

/-- C2: the claim states that lowering `t ? a : b` emits an ADDR
reference to the alt label before JUMPNOT and defines each label
exactly once.  The code instead calls `writeLabel(altLabel)` where the
reference belongs: the lowered sequence for `t ? 1 : 2` contains the
alt label as a *definition* twice and contains no reference to it, so
JUMPNOT has no address operand pushed for it. -/
theorem conditional_lowering_emits_label_for_reference :
    (compileExpression 32 (.cond (.ident "t") (.lit (.num 1)) (.lit (.num 2))) st0).instructions =
      [.opcode OpCode.STR, .data (.str "t"), .opcode OpCode.LOAD,
       .label ".cond_alt_2", .opcode OpCode.JUMPNOT,
       .opcode OpCode.NUM, .data (.num 1),
       .opcode OpCode.ADDR, .reference ".cond_end_1", .opcode OpCode.JUMP,
       .label ".cond_alt_2",
       .opcode OpCode.NUM, .data (.num 2),
       .label ".cond_end_1"]
    ∧ ((compileExpression 32 (.cond (.ident "t") (.lit (.num 1)) (.lit (.num 2))) st0).instructions.count
        (.label ".cond_alt_2") = 2)
    ∧ AsmInstruction.reference ".cond_alt_2" ∉
        (compileExpression 32 (.cond (.ident "t") (.lit (.num 1)) (.lit (.num 2))) st0).instructions := by
  refine ⟨by decide, by decide, by decide⟩

/-- C3: the claim states that for `a && b` with `a` falsy, `b` is never
evaluated and the result is `a`; symmetrically for `a || b` with `a`
truthy.  The compiled code jumps past `b` in exactly the opposite
situations (`JUMPIF` for `&&`, `JUMPNOT` for `||`): running
`var x; 0 && (x = 1);` assigns `x = 1` (the right operand ran under a
falsy left), running `var y; 1 || (y = 2);` assigns `y = 2` (the right
operand ran under a truthy left), and `return false || 5;` returns
`false` instead of `5` (the left operand is kept as the result when
the jump does fire). -/
theorem logical_lowering_inverts_short_circuit :
    scriptVar 1000 prog3a "x" = some (Value.num 1)
    ∧ scriptVar 1000 prog3c "y" = some (Value.num 2)
    ∧ scriptValue 1000 prog3b = some (Value.bool false)
    ∧ Value.bool false ≠ Value.num 5 := by
  refine ⟨by decide, by decide, by decide, by decide⟩

/-- C4: the claim states the stack-balance invariant — every statement
lowering is depth-neutral and a SequenceExpression pops every
intermediate result.  The code's pop condition compares the index
against `arguments.length - 1 = 0`, so no POP is ever emitted:
lowering `(1, 2)` produces just the two NUM pushes, and the script
`(1, 2);` (whose single statement should be depth-neutral) terminates
with the leftover `1` as its return value instead of `undefined`. -/
theorem sequence_lowering_emits_no_pops :
    (compileExpression 32 (.seqE [.lit (.num 1), .lit (.num 2)]) st0).instructions =
      [.opcode OpCode.NUM, .data (.num 1), .opcode OpCode.NUM, .data (.num 2)]
    ∧ scriptValue 1000 prog4 = some (Value.num 1) := by
  refine ⟨by decide, by decide⟩

/-- C5: the claim states that every control construct pops the
break/continue entry it pushed, so a break after a nested switch
resolves to the enclosing construct.  The switch case ends with
`controlBlockStack.pop` *referenced but not invoked*: lowering
`switch (1) {}` from an empty control stack leaves the switch's entry
on it, and in `while (0) { switch (1) {} break; }` the break emits a
reference to the stale `.switch_end_5` label instead of the enclosing
while's `.while_end_2`. -/
theorem switch_lowering_leaks_control_entry :
    (compileStatement 32 (.switchS (.lit (.num 1)) []) st0).controlBlockStack =
      [⟨none, some ".switch_end_3"⟩]
    ∧ (compileStatement 32
        (.whileS (.lit (.num 0)) (.block [.switchS (.lit (.num 1)) [], .breakS])) st0).instructions =
      [.label ".while_start_1", .opcode OpCode.NUM, .data (.num 0),
       .opcode OpCode.ADDR, .reference ".while_end_2", .opcode OpCode.JUMPNOT,
       .opcode OpCode.NUM, .data (.num 1), .opcode OpCode.POP, .label ".switch_end_5",
       .opcode OpCode.ADDR, .reference ".switch_end_5", .opcode OpCode.JUMP,
       .label ".while_end_2"] := by
  refine ⟨by decide, by decide⟩

/-- C6 (counterexample): the claim states that OUT pushes the assigned
value also in the global-fallback case.  Executing OUT with name `"x"`
unbound anywhere and value `5` assigns `x = 5` in the ambient global
environment but pushes `undefined`, not `5`: `GlobalScope.out`'s
fallback path returns no value. -/
theorem out_global_fallback_pushes_undefined :
    step (mkOutState [] [] [Value.str "x", Value.num 5]) =
      .next { scopes := [⟨true, none, []⟩], curScope := 0,
              globalEnv := [("x", Value.num 5)], heap := [],
              codes := [Code.op OpCode.OUT], pieceOfCode := 1,
              stack := [Value.undef] }
    ∧ Value.undef ≠ Value.num 5 := by
  refine ⟨by decide, by decide⟩

/-- C6 (amended): executing OUT pops the name and the value and assigns
through the scope chain; it pushes the assigned value when the name is
bound in the scope's content, but in the global-fallback case (name
unbound anywhere) it assigns in the ambient environment and pushes
`undefined`, because `GlobalScope.out` returns no value on that
path. -/
theorem out_opcode_assignment_behavior (content : List (Value × Value))
    (g : List (String × Value)) (name v : Value) (rest : List Value) :
    ((mapGetV content name).isSome →
      step (mkOutState content g (name :: v :: rest)) =
        .next { scopes := [⟨true, none, mapSetV content name v⟩], curScope := 0,
                globalEnv := g, heap := [], codes := [Code.op OpCode.OUT],
                pieceOfCode := 1, stack := v :: rest })
    ∧ (mapGetV content name = none →
      step (mkOutState content g (name :: v :: rest)) =
        .next { scopes := [⟨true, none, content⟩], curScope := 0,
                globalEnv := envSet g (jsToString name) v, heap := [],
                codes := [Code.op OpCode.OUT], pieceOfCode := 1,
                stack := Value.undef :: rest }) := by
  constructor
  · intro h
    simp only [step, mkOutState, chainFuel, scopeOut, popV, scopeVar]
    norm_num [h, OpCode.NOP, OpCode.UNDEF, OpCode.NULL, OpCode.OBJ, OpCode.ARR,
      OpCode.TRUE, OpCode.FALSE, OpCode.NUM, OpCode.ADDR, OpCode.STR, OpCode.POP,
      OpCode.TOP, OpCode.TOP2, OpCode.VAR, OpCode.LOAD, OpCode.OUT]
  · intro h
    simp only [step, mkOutState, chainFuel, scopeOut, popV, scopeVar]
    norm_num [h, OpCode.NOP, OpCode.UNDEF, OpCode.NULL, OpCode.OBJ, OpCode.ARR,
      OpCode.TRUE, OpCode.FALSE, OpCode.NUM, OpCode.ADDR, OpCode.STR, OpCode.POP,
      OpCode.TOP, OpCode.TOP2, OpCode.VAR, OpCode.LOAD, OpCode.OUT]

/-- C6 (witness): the bound-name side of `out_opcode_assignment_behavior`
at a concrete input — with `x` bound to 0 in the global scope's
content, OUT stores 5 and pushes 5. -/
theorem out_opcode_assignment_behavior_witness :
    step (mkOutState [(Value.str "x", Value.num 0)] [] [Value.str "x", Value.num 5]) =
      .next { scopes := [⟨true, none, [(Value.str "x", Value.num 5)]⟩], curScope := 0,
              globalEnv := [], heap := [], codes := [Code.op OpCode.OUT],
              pieceOfCode := 1, stack := [Value.num 5] } :=
  (out_opcode_assignment_behavior [(Value.str "x", Value.num 0)] [] (Value.str "x")
    (Value.num 5) []).1 (by decide)

/-- C7: the claim states that DELETE is a terminal dispatch case with
net stack effect `obj, key → bool`.  The DELETE case of the source has
no `break` and falls through into EQ: from stack
`[key "a", obj, true]` one dispatch deletes the property, pushes the
deletion result, and then EQ consumes that result together with the
`true` *beneath the operands*, leaving `[true == true]` — three values
consumed, one produced, instead of DELETE's claimed two for one. -/
theorem delete_dispatch_falls_through_to_eq :
    step c7state = .next c7after := by
  decide

/-- C8 (counterexample): the claim states that for `x -= y` the value
stored into `x` is `y - x` (right op left).  Running
`var x = 5; var y = 2; x -= y;` leaves `x = 5`, not `2 - 5 = -3`:
nothing is stored into `x` at all, because the lowering pushes no name
operand for OUT — OUT instead consumes the computed `-3` as the
*name*, and the ambient global gains a property `"-3"` with value
`undefined` (the value operand OUT popped from an exhausted stack). -/
theorem compound_assignment_stores_nothing :
    scriptVar 1000 prog8 "x" = some (Value.num 5)
    ∧ Value.num 5 ≠ Value.num (2 - 5)
    ∧ scriptAmbient 1000 prog8 "-3" = some Value.undef := by
  refine ⟨by decide, by decide, by decide⟩

/-- C8 (amended): the compiler lowers a compound assignment to an
identifier as right operand, then left operand, then the operator —
computing `right op left` — and then emits OUT directly, without first
pushing the variable's name: for `x -= y` the emitted sequence is
`y; x; SUB; OUT`, with no `STR "x"` between SUB and OUT, so the
computed value is consumed as OUT's name operand rather than stored
into the variable. -/
theorem compound_assignment_lowering_shape :
    (compileExpression 32 (.assign .subA (.ident "x") (.ident "y")) st0).instructions =
      [.opcode OpCode.STR, .data (.str "y"), .opcode OpCode.LOAD,
       .opcode OpCode.STR, .data (.str "x"), .opcode OpCode.LOAD,
       .opcode OpCode.SUB, .opcode OpCode.OUT] := by
  decide

/-- C9: the claim states that BAND and LSHIFT share byte 0x73 (the
mnemonic-to-byte assignment is not injective), that the VM dispatches
0x73 as bitwise AND, and that a compiled `<<` therefore evaluates
`left & right`: one dispatch of byte 0x73 on operands 6 and 3 pushes
`6 & 3 = 2`, and the script `var r = 6 << 3;` ends with `r = 2`
(a left shift would give 48). -/
theorem band_lshift_share_byte_and_dispatch_as_band :
    OpName.toByte .BAND = 0x73
    ∧ OpName.toByte .LSHIFT = 0x73
    ∧ ¬ Function.Injective OpName.toByte
    ∧ step c9state = .next c9after
    ∧ scriptVar 1000 prog9 "r" = some (Value.num 2)
    ∧ Value.num 2 ≠ Value.num 48 := by
  refine ⟨rfl, rfl, ?_, by decide, by decide, by decide⟩
  intro h
  have hba : OpName.BAND = OpName.LSHIFT := h (by decide)
  exact absurd hba (by decide)

/-- C10 (counterexample): the claim states that any script whose body
completes without an explicit return returns `undefined`.  The script
`(1, 2);` completes without a return statement, yet returns `1`: the
sequence-expression lowering leaves an extra value on the stack, and
the script-root's bare RET pops that leftover instead of an empty
stack. -/
theorem script_with_sequence_returns_leftover :
    scriptValue 1000 prog4 ≠ some Value.undef
    ∧ scriptValue 1000 prog4 = some (Value.num 1) := by
  refine ⟨by decide, by decide⟩

/-- C10 (amended): executing RET with an empty operand stack returns
`undefined` (popping an empty stack yields `undefined` rather than
failing); the script-root lowering ends with a bare RET not preceded
by UNDEF; and a script whose body completes without an explicit return
*and leaves the operand stack empty* — such as `1;` — returns
`undefined` (without the emptiness proviso the property fails, see the
counterexample). -/
theorem ret_on_empty_stack_returns_undefined :
    (∀ s : VMState, s.codes.get? s.pieceOfCode = some (Code.op OpCode.RET) → s.stack = [] →
      step s = .halt Value.undef { s with pieceOfCode := s.pieceOfCode + 1, stack := [] })
    ∧ (compileProgram 32 prog10).instructions =
        [.label ".main_1", .opcode OpCode.NUM, .data (.num 1),
         .opcode OpCode.POP, .opcode OpCode.RET]
    ∧ scriptValue 1000 prog10 = some Value.undef := by
  refine ⟨?_, by decide, by decide⟩
  intro s hc hs
  simp only [step, hc]
  norm_num [hs, popV, OpCode.NOP, OpCode.UNDEF, OpCode.NULL, OpCode.OBJ, OpCode.ARR,
    OpCode.TRUE, OpCode.FALSE, OpCode.NUM, OpCode.ADDR, OpCode.STR, OpCode.POP,
    OpCode.TOP, OpCode.TOP2, OpCode.VAR, OpCode.LOAD, OpCode.OUT, OpCode.JUMP,
    OpCode.JUMPIF, OpCode.JUMPNOT, OpCode.FUNC, OpCode.CALL, OpCode.NEW, OpCode.RET]

/-- C10 (witness): the RET fact of `ret_on_empty_stack_returns_undefined`
at a concrete machine whose next opcode is RET and whose stack is
empty. -/
theorem ret_on_empty_stack_returns_undefined_witness :
    step retState = .halt Value.undef { retState with pieceOfCode := 1, stack := [] } :=
  (ret_on_empty_stack_returns_undefined).1 retState rfl rfl
